import Mathlib

/-!
Verification of the Code Red tracker storage layer.

This file embeds the in-memory storage backend (`MemStorage` in the server
source, `src/unnamed/part_000`) together with the request-validation guards of
the HTTP routes (`registerRoutes`, driven by the zod schemas of
`src/shared/schema.ts`).  JavaScript `Map` objects are modelled as association
lists with `Map.get` / `Map.set` / `Map.delete` semantics; `Date` instants are
modelled as integer milliseconds supplied explicitly as a `now` argument;
`throw` is modelled with `Except`.  The geographic ETA computation
(`calculateArrivalEstimate`) uses real-valued trigonometry mirroring the
floating-point formulas of the source.
-/

namespace CodeRed

/-- `Map.get`: the value of the first entry carrying the key, if any. -/
def mapGet {κ α : Type} [BEq κ] (l : List (κ × α)) (k : κ) : Option α :=
  (l.find? (fun kv => kv.1 == k)).map (fun kv => kv.2)

/-- `Map.set`: replace the value at an existing key in place, otherwise append
a fresh entry (JavaScript `Map` insertion-order semantics). -/
def mapSet {κ α : Type} [BEq κ] (l : List (κ × α)) (k : κ) (v : α) : List (κ × α) :=
  if l.any (fun kv => kv.1 == k) then
    l.map (fun kv => if kv.1 == k then (k, v) else kv)
  else
    l ++ [(k, v)]

/-- `Map.delete`: drop every entry carrying the key. -/
def mapDelete {κ α : Type} [BEq κ] (l : List (κ × α)) (k : κ) : List (κ × α) :=
  l.filter (fun kv => !(kv.1 == k))

/-- A `code_red_events` row (table `codeRedEvents` of `src/shared/schema.ts`).
Timestamps are integer milliseconds; `locationHistory` is the array of
formatted update strings the server stores. -/
structure CodeRedEvent where
  id : Nat
  activationTime : Int
  labType : String
  location : String
  patientMRN : String
  originalLocation : String
  locationHistory : List String
  assignedRunnerId : Option String
  assignedClinicianId : Option String
  isActive : Bool
  deactivationTime : Option Int
deriving DecidableEq

/-- A `packs` row (table `packs` of `src/shared/schema.ts`). -/
structure Pack where
  id : Nat
  codeRedEventId : Nat
  name : String
  composition : String
  ffp : Int
  cryo : Int
  platelets : Int
  currentStage : Int
  estimatedReadyTime : Option Int
  orderReceivedTime : Option Int
  readyForCollectionTime : Option Int
  runnerEnRouteToLabTime : Option Int
  orderCollectedTime : Option Int
  runnerEnRouteToClinicalTime : Option Int
  productArrivedTime : Option Int
  runnerEstimatedArrivalAtLab : Option Int
  runnerEstimatedArrivalAtClinical : Option Int
deriving DecidableEq

/-- The participant type accepted by the assignment operations
(`'runner' | 'clinician'` in the source). -/
inductive UserType where
  | runner
  | clinician
deriving DecidableEq

/-- A `user_locations` row.  The source stores latitude/longitude as decimal
strings and applies `parseFloat` at every use; we model the parsed numeric
values directly as reals. -/
structure UserLocation where
  id : Nat
  userId : String
  userType : String
  latitude : ℝ
  longitude : ℝ
  accuracy : Option Int
  lastUpdated : Int
  isActive : Bool

/-- The body accepted by `insertPackSchema` (`createInsertSchema(packs)` with
the stage and timestamp columns omitted; the three counts have database
defaults and are therefore optional in the insert type). -/
structure InsertPack where
  codeRedEventId : Nat
  name : String
  composition : String
  ffp : Option Int
  cryo : Option Int
  platelets : Option Int
deriving DecidableEq

/-- The in-memory backend `MemStorage`: three maps plus the id counters the
constructor initialises to 1. -/
structure MemStorage where
  codeRedEvents : List (Nat × CodeRedEvent)
  packs : List (Nat × Pack)
  userLocations : List (String × UserLocation)
  currentEventId : Nat
  currentPackId : Nat
  currentLocationId : Nat

/-- A freshly constructed `MemStorage`. -/
def emptyStorage : MemStorage :=
  { codeRedEvents := [], packs := [], userLocations := []
  , currentEventId := 1, currentPackId := 1, currentLocationId := 1 }

/-- `MemStorage.getPacksByCodeRedEventId`: all packs whose foreign key matches. -/
def MemStorage.getPacksByCodeRedEventId (s : MemStorage) (eventId : Nat) : List Pack :=
  (s.packs.map (fun kv => kv.2)).filter (fun p => p.codeRedEventId == eventId)

/-- `MemStorage.getCodeRedEventById`: returns the event joined with its packs,
but only when the event exists and is still active (`!event || !event.isActive`
yields null). -/
def MemStorage.getCodeRedEventById (s : MemStorage) (id : Nat) :
    Option (CodeRedEvent × List Pack) :=
  match mapGet s.codeRedEvents id with
  | none => none
  | some event =>
    if event.isActive then
      some (event, (s.packs.map (fun kv => kv.2)).filter (fun p => p.codeRedEventId == id))
    else none

/-- `MemStorage.getAllCodeRedEventsForAudit`: every event, active or not,
sorted by the comparator `(a, b) => b.activationTime - a.activationTime`
(most recent first), each joined with its packs. -/
def MemStorage.getAllCodeRedEventsForAudit (s : MemStorage) :
    List (CodeRedEvent × List Pack) :=
  let allEvents := (s.codeRedEvents.map (fun kv => kv.2)).mergeSort
    (fun a b => decide (b.activationTime ≤ a.activationTime))
  allEvents.map (fun event =>
    (event, (s.packs.map (fun kv => kv.2)).filter (fun p => p.codeRedEventId == event.id)))

/-- `MemStorage.assignUserToCodeRed`: silently returns when the event is
missing; otherwise overwrites the single assignment field selected by the
user type, leaving the other untouched. No activity check is performed. -/
def MemStorage.assignUserToCodeRed (s : MemStorage) (codeRedId : Nat)
    (userId : String) (userType : UserType) : MemStorage :=
  match mapGet s.codeRedEvents codeRedId with
  | none => s
  | some event =>
    let updatedEvent : CodeRedEvent :=
      { event with
        assignedRunnerId := if userType = .runner then some userId else event.assignedRunnerId
        assignedClinicianId := if userType = .clinician then some userId else event.assignedClinicianId }
    { s with codeRedEvents := mapSet s.codeRedEvents codeRedId updatedEvent }

/-- `MemStorage.deleteCodeRedEvent`: removes the event, then collects the ids
of every pack pointing at it and deletes them one by one. -/
def MemStorage.deleteCodeRedEvent (s : MemStorage) (id : Nat) : MemStorage :=
  let eventsAfter := mapDelete s.codeRedEvents id
  let packsToDelete := (s.packs.filter (fun kv => kv.2.codeRedEventId == id)).map (fun kv => kv.1)
  { s with codeRedEvents := eventsAfter
         , packs := packsToDelete.foldl (fun ps packId => mapDelete ps packId) s.packs }

/-- The history entry string
`timestamp + ": Moved from \"" + oldLoc + "\" to \"" + newLoc + "\""` built by
`updateCodeRedLocation`. -/
def locationUpdateString (timestamp oldLoc newLoc : String) : String :=
  timestamp ++ ": Moved from \"" ++ oldLoc ++ "\" to \"" ++ newLoc ++ "\""

/-- `MemStorage.updateCodeRedLocation`: throws when the event is missing;
otherwise appends one formatted history entry and overwrites `location`.
`nowISO` is the `new Date().toISOString()` string taken at the call instant. -/
def MemStorage.updateCodeRedLocation (s : MemStorage) (codeRedId : Nat)
    (newLocation : String) (nowISO : String) :
    Except String (MemStorage × CodeRedEvent) :=
  match mapGet s.codeRedEvents codeRedId with
  | none => .error ("Code Red event " ++ toString codeRedId ++ " not found")
  | some event =>
    let locationUpdate := locationUpdateString nowISO event.location newLocation
    let updatedEvent : CodeRedEvent :=
      { event with
        location := newLocation
        locationHistory := event.locationHistory ++ [locationUpdate] }
    .ok ({ s with codeRedEvents := mapSet s.codeRedEvents codeRedId updatedEvent }, updatedEvent)

/-- `MemStorage.createPack`: allocates the next pack id and stores a pack at
stage 1 with `orderReceivedTime = now` and every other timestamp null.  The
parent event id is copied verbatim — its existence is never checked. -/
def MemStorage.createPack (s : MemStorage) (insertPack : InsertPack) (now : Int) :
    MemStorage × Pack :=
  let id := s.currentPackId
  let pack : Pack :=
    { id := id
      codeRedEventId := insertPack.codeRedEventId
      name := insertPack.name
      composition := insertPack.composition
      ffp := insertPack.ffp.getD 0
      cryo := insertPack.cryo.getD 0
      platelets := insertPack.platelets.getD 0
      currentStage := 1
      estimatedReadyTime := none
      orderReceivedTime := some now
      readyForCollectionTime := none
      runnerEnRouteToLabTime := none
      orderCollectedTime := none
      runnerEnRouteToClinicalTime := none
      productArrivedTime := none
      runnerEstimatedArrivalAtLab := none
      runnerEstimatedArrivalAtClinical := none }
  ({ s with packs := mapSet s.packs id pack, currentPackId := s.currentPackId + 1 }, pack)

/-- The `switch (data.stage)` of `updatePackStage`: stamps `now` into the one
timestamp slot belonging to the stage (no slot for values outside 1..6). -/
def applyStageTimestamp (pack : Pack) (stage : Int) (now : Int) : Pack :=
  if stage = 1 then { pack with orderReceivedTime := some now }
  else if stage = 2 then { pack with readyForCollectionTime := some now }
  else if stage = 3 then { pack with runnerEnRouteToLabTime := some now }
  else if stage = 4 then { pack with orderCollectedTime := some now }
  else if stage = 5 then { pack with runnerEnRouteToClinicalTime := some now }
  else if stage = 6 then { pack with productArrivedTime := some now }
  else pack

/-- The stage-timestamp slot belonging to a stage number. -/
def stageSlot (stage : Int) (pack : Pack) : Option Int :=
  if stage = 1 then pack.orderReceivedTime
  else if stage = 2 then pack.readyForCollectionTime
  else if stage = 3 then pack.runnerEnRouteToLabTime
  else if stage = 4 then pack.orderCollectedTime
  else if stage = 5 then pack.runnerEnRouteToClinicalTime
  else if stage = 6 then pack.productArrivedTime
  else none

/-- `MemStorage.updatePackStage`: throws when the pack is missing; otherwise
sets `currentStage` to the requested stage (no adjacency or range guard here —
the route's zod schema supplies the range guard) and stamps the matching slot. -/
def MemStorage.updatePackStage (s : MemStorage) (packId : Nat) (stage : Int)
    (now : Int) : Except String (MemStorage × Pack) :=
  match mapGet s.packs packId with
  | none => .error ("Pack with id " ++ toString packId ++ " not found")
  | some pack =>
    let updatedPack := applyStageTimestamp { pack with currentStage := stage } stage now
    .ok ({ s with packs := mapSet s.packs packId updatedPack }, updatedPack)

/-- `MemStorage.updatePackEstimate`: throws when the pack is missing; a null
estimate clears `estimatedReadyTime`, a numeric one sets it to the call
instant plus that many minutes (60000 ms each). -/
def MemStorage.updatePackEstimate (s : MemStorage) (packId : Nat)
    (estimatedMinutes : Option Int) (now : Int) : Except String (MemStorage × Pack) :=
  match mapGet s.packs packId with
  | none => .error ("Pack with id " ++ toString packId ++ " not found")
  | some pack =>
    let estimatedReadyTime : Option Int :=
      match estimatedMinutes with
      | none => none
      | some m => some (now + m * 60000)
    let updatedPack : Pack := { pack with estimatedReadyTime := estimatedReadyTime }
    .ok ({ s with packs := mapSet s.packs packId updatedPack }, updatedPack)

/-- The `PATCH /api/packs/stage` route: `updatePackStageSchema` requires the
stage to lie in [1, 6] (`z.number().min(1).max(6)`); a failing parse answers
400 without touching storage, a storage throw answers 500 likewise. -/
def updatePackStageEndpoint (s : MemStorage) (packId : Nat) (stage : Int)
    (now : Int) : MemStorage × Except String Pack :=
  if 1 ≤ stage ∧ stage ≤ 6 then
    match s.updatePackStage packId stage now with
    | .ok (s', pack) => (s', .ok pack)
    | .error msg => (s, .error msg)
  else (s, .error "Invalid data")

/-- The `PATCH /api/packs/estimate` route: `updatePackEstimateSchema` accepts
null or a number in [1, 120]; a failing parse answers 400 without touching
storage. -/
def updatePackEstimateEndpoint (s : MemStorage) (packId : Nat)
    (estimatedMinutes : Option Int) (now : Int) : MemStorage × Except String Pack :=
  match estimatedMinutes with
  | some m =>
    if 1 ≤ m ∧ m ≤ 120 then
      match s.updatePackEstimate packId (some m) now with
      | .ok (s', pack) => (s', .ok pack)
      | .error msg => (s, .error msg)
    else (s, .error "Invalid data")
  | none =>
    match s.updatePackEstimate packId none now with
    | .ok (s', pack) => (s', .ok pack)
    | .error msg => (s, .error msg)

/-- JavaScript `Math.round`: round half toward positive infinity. -/
noncomputable def jsRound (x : ℝ) : ℤ := ⌊x + 1 / 2⌋

/-- `toRadians` of the storage classes: `degrees * (Math.PI / 180)`. -/
noncomputable def toRadians (degrees : ℝ) : ℝ := degrees * (Real.pi / 180)

/-- JavaScript `Math.atan2(y, x)`, written piecewise over the reals. -/
noncomputable def atan2 (y x : ℝ) : ℝ :=
  if 0 < x then Real.arctan (y / x)
  else if x < 0 ∧ 0 ≤ y then Real.arctan (y / x) + Real.pi
  else if x < 0 ∧ y < 0 then Real.arctan (y / x) - Real.pi
  else if x = 0 ∧ 0 < y then Real.pi / 2
  else if x = 0 ∧ y < 0 then -(Real.pi / 2)
  else 0

/-- `MemStorage.calculateArrivalEstimate`: null when the participant has no
stored location, otherwise the haversine great-circle distance (Earth radius
6371 km) from the stored position to the target, at 5 km/h, in rounded
minutes. -/
noncomputable def MemStorage.calculateArrivalEstimate (s : MemStorage)
    (fromUserId : String) (toLat toLng : ℝ) : Option ℤ :=
  match mapGet s.userLocations fromUserId with
  | none => none
  | some userLocation =>
    let R : ℝ := 6371
    let dLat := toRadians (toLat - userLocation.latitude)
    let dLon := toRadians (toLng - userLocation.longitude)
    let a := Real.sin (dLat / 2) * Real.sin (dLat / 2) +
      Real.cos (toRadians userLocation.latitude) * Real.cos (toRadians toLat) *
      Real.sin (dLon / 2) * Real.sin (dLon / 2)
    let c := 2 * atan2 (Real.sqrt a) (Real.sqrt (1 - a))
    let distance := R * c
    some (jsRound (distance / 5 * 60))

section MapLemmas

variable {κ α : Type} [BEq κ] [LawfulBEq κ]

theorem mapGet_nil (k : κ) : mapGet ([] : List (κ × α)) k = none := rfl

theorem mapGet_cons (a : κ × α) (t : List (κ × α)) (k : κ) :
    mapGet (a :: t) k = if a.1 == k then some a.2 else mapGet t k := by
  cases h : a.1 == k <;> simp [mapGet, List.find?_cons, h]

theorem mapGet_append_single (l : List (κ × α)) (k : κ) (v : α)
    (h : l.any (fun kv => kv.1 == k) = false) :
    mapGet (l ++ [(k, v)]) k = some v := by
  induction l with
  | nil => simp [mapGet]
  | cons a t ih =>
    simp only [List.any_cons, Bool.or_eq_false_iff] at h
    rw [List.cons_append, mapGet_cons]
    simp [h.1, ih h.2]

theorem mapGet_map_replace (l : List (κ × α)) (k : κ) (v : α) :
    mapGet (l.map (fun kv => if kv.1 == k then (k, v) else kv)) k =
      if l.any (fun kv => kv.1 == k) then some v else none := by
  induction l with
  | nil => simp [mapGet]
  | cons a t ih =>
    cases h : a.1 == k with
    | true => simp [mapGet_cons, h]
    | false =>
      simp only [List.map_cons, h, Bool.false_eq_true, if_false]
      rw [mapGet_cons, ih, List.any_cons, h, Bool.false_or]
      simp [h]

theorem mapGet_mapSet_self (l : List (κ × α)) (k : κ) (v : α) :
    mapGet (mapSet l k v) k = some v := by
  unfold mapSet
  by_cases h : l.any (fun kv => kv.1 == k) = true
  · rw [if_pos h, mapGet_map_replace, if_pos h]
  · rw [if_neg h]
    exact mapGet_append_single l k v (Bool.not_eq_true _ ▸ Bool.of_not_eq_true h)

theorem mapGet_map_replace_ne (l : List (κ × α)) (j k : κ) (v : α) (hjk : j ≠ k) :
    mapGet (l.map (fun kv => if kv.1 == k then (k, v) else kv)) j = mapGet l j := by
  induction l with
  | nil => simp [mapGet]
  | cons a t ih =>
    cases h : a.1 == k with
    | true =>
      have ha : a.1 = k := eq_of_beq h
      have hkj : (k == j) = false := beq_eq_false_iff_ne.mpr (fun hh => hjk hh.symm)
      have haj : (a.1 == j) = false := by rw [ha]; exact hkj
      simp [mapGet_cons, h, hkj, haj, ih]
    | false => simp [mapGet_cons, h, ih]

theorem mapGet_append (l₁ l₂ : List (κ × α)) (k : κ) :
    mapGet (l₁ ++ l₂) k = (mapGet l₁ k).or (mapGet l₂ k) := by
  induction l₁ with
  | nil => simp [mapGet]
  | cons a t ih =>
    rw [List.cons_append, mapGet_cons, mapGet_cons]
    cases h : a.1 == k <;> simp [ih]

theorem mapGet_mapSet_ne (l : List (κ × α)) (j k : κ) (v : α) (hjk : j ≠ k) :
    mapGet (mapSet l k v) j = mapGet l j := by
  unfold mapSet
  by_cases h : l.any (fun kv => kv.1 == k) = true
  · rw [if_pos h]; exact mapGet_map_replace_ne l j k v hjk
  · rw [if_neg h, mapGet_append]
    have hkj : (k == j) = false := beq_eq_false_iff_ne.mpr (fun hh => hjk hh.symm)
    cases hg : mapGet l j <;> simp [mapGet, List.find?, hkj]

theorem mapGet_mapDelete_self (l : List (κ × α)) (k : κ) :
    mapGet (mapDelete l k) k = none := by
  induction l with
  | nil => rfl
  | cons a t ih =>
    unfold mapDelete at ih ⊢
    cases h : a.1 == k <;> simp [List.filter_cons, h, mapGet_cons, ih]

theorem mapGet_mapDelete_ne (l : List (κ × α)) (j k : κ) (hjk : j ≠ k) :
    mapGet (mapDelete l k) j = mapGet l j := by
  induction l with
  | nil => rfl
  | cons a t ih =>
    unfold mapDelete at ih ⊢
    cases h : a.1 == k with
    | true =>
      have haj : (a.1 == j) = false := by
        rw [eq_of_beq h]; exact beq_eq_false_iff_ne.mpr (fun hh => hjk hh.symm)
      simp [List.filter_cons, h, mapGet_cons, haj, ih]
    | false =>
      rw [List.filter_cons]
      simp only [h, Bool.not_false, if_true]
      rw [mapGet_cons, mapGet_cons, ih]

theorem mapGet_filter (f : κ × α → Bool) (l : List (κ × α)) (k : κ) (v : α)
    (h : mapGet l k = some v) (hf : f (k, v) = true) :
    mapGet (l.filter f) k = some v := by
  induction l with
  | nil => simp [mapGet] at h
  | cons a t ih =>
    rw [mapGet_cons] at h
    cases ha : a.1 == k with
    | true =>
      rw [ha, if_pos rfl] at h
      have hav : a = (k, v) := by
        obtain ⟨a1, a2⟩ := a
        simp only at h ha
        simp [eq_of_beq ha, Option.some_inj.mp h]
      subst hav
      rw [List.filter_cons, hf]
      simp [mapGet_cons]
    | false =>
      rw [ha] at h
      simp only [Bool.false_eq_true, if_false] at h
      rw [List.filter_cons]
      cases hfa : f a with
      | true => simp only [if_true]; rw [mapGet_cons, ha]; simpa using ih h
      | false => simp only [Bool.false_eq_true, if_false]; exact ih h

theorem mapGet_mem (l : List (κ × α)) (k : κ) (v : α) (h : mapGet l k = some v) :
    (k, v) ∈ l := by
  induction l with
  | nil => simp [mapGet] at h
  | cons a t ih =>
    rw [mapGet_cons] at h
    cases ha : a.1 == k with
    | true =>
      rw [ha, if_pos rfl] at h
      obtain ⟨a1, a2⟩ := a
      simp only at ha h
      simp [eq_of_beq ha, Option.some_inj.mp h]
    | false =>
      rw [ha] at h
      simp only [Bool.false_eq_true, if_false] at h
      exact List.mem_cons_of_mem _ (ih h)

theorem key_unique (l : List (κ × α)) (k : κ) (a b : α)
    (hnd : (l.map Prod.fst).Nodup) (h1 : (k, a) ∈ l) (h2 : (k, b) ∈ l) : a = b := by
  induction l with
  | nil => simp at h1
  | cons x t ih =>
    rw [List.map_cons, List.nodup_cons] at hnd
    rcases List.mem_cons.mp h1 with h1h | h1t <;>
      rcases List.mem_cons.mp h2 with h2h | h2t
    · rw [← h1h] at h2h; exact (Prod.mk.injEq _ _ _ _ ▸ h2h).2.symm
    · exact absurd (List.mem_map.mpr ⟨(k, b), h2t, by rw [← h1h]⟩) hnd.1
    · exact absurd (List.mem_map.mpr ⟨(k, a), h1t, by rw [← h2h]⟩) hnd.1
    · exact ih hnd.2 h1t h2t

theorem foldl_mapDelete (ids : List κ) (l : List (κ × α)) :
    ids.foldl (fun ps i => mapDelete ps i) l =
      l.filter (fun kv => !(ids.contains kv.1)) := by
  induction ids generalizing l with
  | nil => simp
  | cons i ids ih =>
    rw [List.foldl_cons, ih]
    unfold mapDelete
    rw [List.filter_filter]
    apply List.filter_congr
    intro a _
    rw [List.contains_cons]
    cases h1 : a.1 == i <;> cases h2 : ids.contains a.1 <;> rfl

end MapLemmas

/-! Concrete fixtures used by the witness theorems. -/

/-- A pack at stage 1, as `createPack` would have produced it at instant 1000. -/
def samplePack : Pack :=
  { id := 1, codeRedEventId := 1, name := "Pack A"
  , composition := "6 FFP, 2 Cryo, 1 Platelets"
  , ffp := 6, cryo := 2, platelets := 1, currentStage := 1
  , estimatedReadyTime := none, orderReceivedTime := some 1000
  , readyForCollectionTime := none, runnerEnRouteToLabTime := none
  , orderCollectedTime := none, runnerEnRouteToClinicalTime := none
  , productArrivedTime := none, runnerEstimatedArrivalAtLab := none
  , runnerEstimatedArrivalAtClinical := none }

/-- A pack owned by incident 2. -/
def samplePack2 : Pack :=
  { samplePack with
    id := 2
    codeRedEventId := 2
    name := "Pack B" }

/-- An active incident. -/
def sampleEvent : CodeRedEvent :=
  { id := 1, activationTime := 500, labType := "Main Lab", location := "ED"
  , patientMRN := "MRN001", originalLocation := "ED", locationHistory := []
  , assignedRunnerId := none, assignedClinicianId := none
  , isActive := true, deactivationTime := none }

/-- A second, deactivated incident. -/
def sampleEvent2 : CodeRedEvent :=
  { sampleEvent with
    id := 2
    activationTime := 900
    location := "Theatre 3"
    originalLocation := "Theatre 3"
    patientMRN := "MRN002"
    isActive := false
    deactivationTime := some 1500 }

/-- A store holding both incidents and one pack under each. -/
def sampleStorage : MemStorage :=
  { codeRedEvents := [(1, sampleEvent), (2, sampleEvent2)]
  , packs := [(1, samplePack), (2, samplePack2)], userLocations := []
  , currentEventId := 3, currentPackId := 3, currentLocationId := 1 }

/-- A well-formed pack-creation request referencing incident 1. -/
def sampleInsertPack : InsertPack :=
  { codeRedEventId := 1, name := "Pack A"
  , composition := "6 FFP, 2 Cryo, 1 Platelets"
  , ffp := some 6, cryo := some 2, platelets := some 1 }

/-! Claim theorems. -/

/-- C1: for an existing pack and any target stage t with 1 ≤ t ≤ 6 (adjacency
with the current stage never checked), `updatePackStage` succeeds, sets
`currentStage = t`, stamps exactly the slot belonging to t with the call
instant, leaves the other five slots unchanged, and stores the result. -/
theorem c1_updatePackStage_permissive (s : MemStorage) (packId : Nat) (pack : Pack)
    (t now : Int) (hget : mapGet s.packs packId = some pack)
    (h1 : 1 ≤ t) (h6 : t ≤ 6) :
    ∃ s' p', s.updatePackStage packId t now = .ok (s', p') ∧
      p'.currentStage = t ∧
      stageSlot t p' = some now ∧
      (∀ u : Int, 1 ≤ u → u ≤ 6 → u ≠ t → stageSlot u p' = stageSlot u pack) ∧
      mapGet s'.packs packId = some p' := by
  unfold MemStorage.updatePackStage
  rw [hget]
  refine ⟨_, _, rfl, ?_, ?_, ?_, mapGet_mapSet_self _ _ _⟩
  · interval_cases t <;> simp [applyStageTimestamp]
  · interval_cases t <;> simp [applyStageTimestamp, stageSlot]
  · intro u hu1 hu6 hne
    interval_cases t <;> interval_cases u <;>
      simp_all [applyStageTimestamp, stageSlot]

/-- Witness for C1: a backward jump 1 → 5 on the concrete store. -/
theorem c1_witness :
    ∃ s' p', sampleStorage.updatePackStage 1 5 2000 = .ok (s', p') ∧
      p'.currentStage = 5 ∧
      stageSlot 5 p' = some 2000 ∧
      (∀ u : Int, 1 ≤ u → u ≤ 6 → u ≠ 5 → stageSlot u p' = stageSlot u samplePack) ∧
      mapGet s'.packs 1 = some p' :=
  c1_updatePackStage_permissive sampleStorage 1 samplePack 5 2000 rfl
    (by decide) (by decide)

/-- C2 (as written) is false: `createPack` never checks that the parent
incident exists.  On a fresh store with no incidents, creating a pack under
incident 1 succeeds and the dangling pack is stored. -/
theorem c2_counterexample :
    mapGet emptyStorage.codeRedEvents 1 = none ∧
    (emptyStorage.createPack sampleInsertPack 0).2.codeRedEventId = 1 ∧
    mapGet (emptyStorage.createPack sampleInsertPack 0).1.packs 1 =
      some (emptyStorage.createPack sampleInsertPack 0).2 :=
  ⟨rfl, rfl, rfl⟩

/-- C2 amended: `createPack` performs no parent-existence check; even when the
referenced incident is missing it succeeds, storing a stage-1 pack whose
foreign key dangles, and the incident remains missing afterwards. -/
theorem c2_createPack_unchecked (s : MemStorage) (ip : InsertPack) (now : Int)
    (hmissing : mapGet s.codeRedEvents ip.codeRedEventId = none) :
    (s.createPack ip now).2.codeRedEventId = ip.codeRedEventId ∧
    (s.createPack ip now).2.currentStage = 1 ∧
    (s.createPack ip now).2.orderReceivedTime = some now ∧
    mapGet (s.createPack ip now).1.packs (s.createPack ip now).2.id =
      some (s.createPack ip now).2 ∧
    mapGet (s.createPack ip now).1.codeRedEvents ip.codeRedEventId = none :=
  ⟨rfl, rfl, rfl, mapGet_mapSet_self _ _ _, hmissing⟩

/-- Witness for the amended C2 on the fresh store. -/
theorem c2_witness :
    (emptyStorage.createPack sampleInsertPack 0).2.codeRedEventId = 1 ∧
    (emptyStorage.createPack sampleInsertPack 0).2.currentStage = 1 ∧
    (emptyStorage.createPack sampleInsertPack 0).2.orderReceivedTime = some 0 ∧
    mapGet (emptyStorage.createPack sampleInsertPack 0).1.packs
      (emptyStorage.createPack sampleInsertPack 0).2.id =
      some (emptyStorage.createPack sampleInsertPack 0).2 ∧
    mapGet (emptyStorage.createPack sampleInsertPack 0).1.codeRedEvents 1 = none :=
  c2_createPack_unchecked emptyStorage sampleInsertPack 0 rfl

/-- C3: the stage route rejects any integer stage outside [1, 6] (the zod
schema's min/max) before touching storage, so the call fails and the store —
hence the pack, its `currentStage` and all six slots — is exactly as before. -/
theorem c3_updatePackStage_range (s : MemStorage) (packId : Nat) (t now : Int)
    (hout : t < 1 ∨ 6 < t) :
    updatePackStageEndpoint s packId t now = (s, .error "Invalid data") ∧
    mapGet (updatePackStageEndpoint s packId t now).1.packs packId =
      mapGet s.packs packId := by
  have h : updatePackStageEndpoint s packId t now = (s, .error "Invalid data") := by
    unfold updatePackStageEndpoint
    rw [if_neg]
    rintro ⟨ha, hb⟩
    rcases hout with h | h <;> omega
  exact ⟨h, by rw [h]⟩

/-- Witness for C3 at the out-of-range stages 0 and 7. -/
theorem c3_witness :
    (updatePackStageEndpoint sampleStorage 1 7 2000 =
      (sampleStorage, .error "Invalid data")) ∧
    (updatePackStageEndpoint sampleStorage 1 0 2000 =
      (sampleStorage, .error "Invalid data")) :=
  ⟨(c3_updatePackStage_range sampleStorage 1 7 2000 (by decide)).1,
   (c3_updatePackStage_range sampleStorage 1 0 2000 (by decide)).1⟩

/-- C4: deleting an incident removes its record and every pack whose foreign
key points at it — afterwards the lookup answers null and no pack under the
incident is retrievable — while a pack of any other incident survives with its
value intact (`Map` keys are unique, expressed by the `Nodup` hypothesis). -/
theorem c4_deleteCodeRedEvent_cascade (s : MemStorage) (e pid : Nat) (p : Pack)
    (hnd : (s.packs.map Prod.fst).Nodup)
    (hp : mapGet s.packs pid = some p) (hne : p.codeRedEventId ≠ e) :
    (s.deleteCodeRedEvent e).getCodeRedEventById e = none ∧
    mapGet (s.deleteCodeRedEvent e).codeRedEvents e = none ∧
    (s.deleteCodeRedEvent e).getPacksByCodeRedEventId e = [] ∧
    mapGet (s.deleteCodeRedEvent e).packs pid = some p := by
  have hev : mapGet (s.deleteCodeRedEvent e).codeRedEvents e = none := by
    unfold MemStorage.deleteCodeRedEvent
    exact mapGet_mapDelete_self _ _
  have hpacks : (s.deleteCodeRedEvent e).packs =
      s.packs.filter (fun kv =>
        !(((s.packs.filter (fun kv => kv.2.codeRedEventId == e)).map
            (fun kv => kv.1)).contains kv.1)) := by
    unfold MemStorage.deleteCodeRedEvent
    exact foldl_mapDelete _ _
  refine ⟨?_, hev, ?_, ?_⟩
  · unfold MemStorage.getCodeRedEventById
    rw [hev]
  · unfold MemStorage.getPacksByCodeRedEventId
    rw [hpacks, List.filter_eq_nil_iff]
    intro q hq
    rw [List.mem_map] at hq
    obtain ⟨kv, hkv, rfl⟩ := hq
    rw [List.mem_filter] at hkv
    obtain ⟨hkvmem, hkvsurv⟩ := hkv
    intro hqe
    have hin : ((s.packs.filter (fun kv => kv.2.codeRedEventId == e)).map
        (fun kv => kv.1)).contains kv.1 = true := by
      rw [List.contains_eq_any_beq]
      rw [List.any_eq_true]
      exact ⟨kv.1, List.mem_map.mpr ⟨kv, List.mem_filter.mpr ⟨hkvmem, hqe⟩, rfl⟩,
        BEq.refl⟩
    rw [hin] at hkvsurv
    exact absurd hkvsurv (by decide)
  · rw [hpacks]
    apply mapGet_filter _ _ _ _ hp
    have hpid : ((s.packs.filter (fun kv => kv.2.codeRedEventId == e)).map
        (fun kv => kv.1)).contains pid = false := by
      rw [Bool.eq_false_iff]
      intro hc
      have hmem : pid ∈ (s.packs.filter (fun kv => kv.2.codeRedEventId == e)).map
          (fun kv => kv.1) := List.elem_iff.mp hc
      rw [List.mem_map] at hmem
      obtain ⟨kv, hkvf, hkv1⟩ := hmem
      rw [List.mem_filter] at hkvf
      obtain ⟨hkvmem, hkveq⟩ := hkvf
      have hkvpair : (pid, kv.2) ∈ s.packs := by
        rw [← hkv1]
        exact hkvmem
      have hkv2 : kv.2 = p :=
        key_unique s.packs pid kv.2 p hnd hkvpair (mapGet_mem _ _ _ hp)
      rw [hkv2] at hkveq
      exact hne (eq_of_beq hkveq)
    rw [hpid]
    rfl

/-- Witness for C4: deleting incident 1 from the concrete store removes it and
its pack while incident 2's pack survives. -/
theorem c4_witness :
    (sampleStorage.deleteCodeRedEvent 1).getCodeRedEventById 1 = none ∧
    mapGet (sampleStorage.deleteCodeRedEvent 1).codeRedEvents 1 = none ∧
    (sampleStorage.deleteCodeRedEvent 1).getPacksByCodeRedEventId 1 = [] ∧
    mapGet (sampleStorage.deleteCodeRedEvent 1).packs 2 = some samplePack2 :=
  c4_deleteCodeRedEvent_cascade sampleStorage 1 2 samplePack2 (by decide) rfl
    (by decide)

/-- C5: location update on an existing incident appends exactly one history
entry recording the old-to-new transition with the call instant and overwrites
`location`, leaving all other incidents untouched; on a missing id it fails
with the not-found error (and, returning only the error, changes nothing). -/
theorem c5_updateCodeRedLocation_spec (s : MemStorage) (id : Nat)
    (newLoc nowISO : String) :
    (mapGet s.codeRedEvents id = none →
      s.updateCodeRedLocation id newLoc nowISO =
        .error ("Code Red event " ++ toString id ++ " not found")) ∧
    (∀ e, mapGet s.codeRedEvents id = some e →
      ∃ s' e', s.updateCodeRedLocation id newLoc nowISO = .ok (s', e') ∧
        e'.location = newLoc ∧
        e'.locationHistory =
          e.locationHistory ++ [locationUpdateString nowISO e.location newLoc] ∧
        mapGet s'.codeRedEvents id = some e' ∧
        (∀ j, j ≠ id → mapGet s'.codeRedEvents j = mapGet s.codeRedEvents j)) := by
  constructor
  · intro hmissing
    unfold MemStorage.updateCodeRedLocation
    rw [hmissing]
  · intro e hget
    unfold MemStorage.updateCodeRedLocation
    rw [hget]
    exact ⟨_, _, rfl, rfl, rfl, mapGet_mapSet_self _ _ _,
      fun j hj => mapGet_mapSet_ne _ _ _ _ hj⟩

/-- Witness for C5: a successful move of incident 1 and a failing call on the
missing incident 9. -/
theorem c5_witness :
    (∃ s' e', sampleStorage.updateCodeRedLocation 1 "ICU" "2025-01-01T00:00:00.000Z" =
        .ok (s', e') ∧
      e'.location = "ICU" ∧
      e'.locationHistory =
        sampleEvent.locationHistory ++
          [locationUpdateString "2025-01-01T00:00:00.000Z" sampleEvent.location "ICU"] ∧
      mapGet s'.codeRedEvents 1 = some e' ∧
      (∀ j, j ≠ 1 → mapGet s'.codeRedEvents j = mapGet sampleStorage.codeRedEvents j)) ∧
    sampleStorage.updateCodeRedLocation 9 "ICU" "2025-01-01T00:00:00.000Z" =
      .error ("Code Red event " ++ toString 9 ++ " not found") :=
  ⟨(c5_updateCodeRedLocation_spec sampleStorage 1 "ICU" "2025-01-01T00:00:00.000Z").2
      sampleEvent rfl,
   (c5_updateCodeRedLocation_spec sampleStorage 9 "ICU" "2025-01-01T00:00:00.000Z").1 rfl⟩

/-- C6: `getCodeRedEventById` answers the event (joined with its packs) only
when it exists and is active; a missing id and an existing-but-inactive
incident both answer null. -/
theorem c6_getCodeRedEventById_spec (s : MemStorage) (id : Nat) :
    (mapGet s.codeRedEvents id = none → s.getCodeRedEventById id = none) ∧
    (∀ e, mapGet s.codeRedEvents id = some e → e.isActive = false →
      s.getCodeRedEventById id = none) ∧
    (∀ e, mapGet s.codeRedEvents id = some e → e.isActive = true →
      s.getCodeRedEventById id = some (e, s.getPacksByCodeRedEventId id)) := by
  refine ⟨fun h => ?_, fun e hget hinact => ?_, fun e hget hact => ?_⟩
  · unfold MemStorage.getCodeRedEventById
    rw [h]
  · unfold MemStorage.getCodeRedEventById
    rw [hget]
    simp [hinact]
  · unfold MemStorage.getCodeRedEventById
    rw [hget]
    simp [hact]
    rfl

/-- Witness for C6: active incident 1 is returned, inactive incident 2 and
missing incident 9 are not. -/
theorem c6_witness :
    sampleStorage.getCodeRedEventById 2 = none ∧
    sampleStorage.getCodeRedEventById 9 = none ∧
    sampleStorage.getCodeRedEventById 1 =
      some (sampleEvent, sampleStorage.getPacksByCodeRedEventId 1) :=
  ⟨(c6_getCodeRedEventById_spec sampleStorage 2).2.1 sampleEvent2 rfl rfl,
   (c6_getCodeRedEventById_spec sampleStorage 9).1 rfl,
   (c6_getCodeRedEventById_spec sampleStorage 1).2.2 sampleEvent rfl rfl⟩

/-- C7: on an existing pack the estimate route clears `estimatedReadyTime`
for a null body, sets it to `now` plus the requested minutes for any value in
[1, 120], and rejects any other integer without touching the store. -/
theorem c7_updatePackEstimate_spec (s : MemStorage) (packId : Nat) (pack : Pack)
    (now : Int) (hget : mapGet s.packs packId = some pack) :
    (∃ s' p', updatePackEstimateEndpoint s packId none now = (s', .ok p') ∧
      p'.estimatedReadyTime = none ∧ mapGet s'.packs packId = some p') ∧
    (∀ m : Int, 1 ≤ m → m ≤ 120 →
      ∃ s' p', updatePackEstimateEndpoint s packId (some m) now = (s', .ok p') ∧
        p'.estimatedReadyTime = some (now + m * 60000) ∧
        mapGet s'.packs packId = some p') ∧
    (∀ m : Int, m < 1 ∨ 120 < m →
      updatePackEstimateEndpoint s packId (some m) now = (s, .error "Invalid data")) := by
  refine ⟨?_, fun m hm1 hm2 => ?_, fun m hm => ?_⟩
  · unfold updatePackEstimateEndpoint MemStorage.updatePackEstimate
    rw [hget]
    exact ⟨_, _, rfl, rfl, mapGet_mapSet_self _ _ _⟩
  · simp only [updatePackEstimateEndpoint]
    rw [if_pos ⟨hm1, hm2⟩]
    unfold MemStorage.updatePackEstimate
    rw [hget]
    exact ⟨_, _, rfl, rfl, mapGet_mapSet_self _ _ _⟩
  · simp only [updatePackEstimateEndpoint]
    rw [if_neg]
    rintro ⟨ha, hb⟩
    rcases hm with h | h <;> omega

/-- Witness for C7: clearing, a 90-minute estimate, and the rejected values
0 and 121, all on the concrete store. -/
theorem c7_witness :
    (∃ s' p', updatePackEstimateEndpoint sampleStorage 1 none 5000 = (s', .ok p') ∧
      p'.estimatedReadyTime = none ∧ mapGet s'.packs 1 = some p') ∧
    (∃ s' p', updatePackEstimateEndpoint sampleStorage 1 (some 90) 5000 = (s', .ok p') ∧
      p'.estimatedReadyTime = some (5000 + 90 * 60000) ∧
      mapGet s'.packs 1 = some p') ∧
    updatePackEstimateEndpoint sampleStorage 1 (some 0) 5000 =
      (sampleStorage, .error "Invalid data") ∧
    updatePackEstimateEndpoint sampleStorage 1 (some 121) 5000 =
      (sampleStorage, .error "Invalid data") :=
  ⟨(c7_updatePackEstimate_spec sampleStorage 1 samplePack 5000 rfl).1,
   (c7_updatePackEstimate_spec sampleStorage 1 samplePack 5000 rfl).2.1 90
     (by decide) (by decide),
   (c7_updatePackEstimate_spec sampleStorage 1 samplePack 5000 rfl).2.2 0
     (Or.inl (by decide)),
   (c7_updatePackEstimate_spec sampleStorage 1 samplePack 5000 rfl).2.2 121
     (Or.inr (by decide))⟩

/-- C9: the audit listing returns every incident — active and inactive alike,
as a permutation of the stored events — ordered by activation time (most
recent first, the source comparator `b.activationTime - a.activationTime`). -/
theorem c9_getAllCodeRedEventsForAudit_spec (s : MemStorage) :
    (s.getAllCodeRedEventsForAudit.map (fun r => r.1)).Perm
      (s.codeRedEvents.map (fun kv => kv.2)) ∧
    s.getAllCodeRedEventsForAudit.Pairwise
      (fun x y => y.1.activationTime ≤ x.1.activationTime) := by
  constructor
  · simp only [MemStorage.getAllCodeRedEventsForAudit]
    rw [List.map_map]
    have hcomp : ((fun r : CodeRedEvent × List Pack => r.1) ∘
        (fun event : CodeRedEvent =>
          (event, (s.packs.map (fun kv => kv.2)).filter
            (fun p => p.codeRedEventId == event.id)))) = id := rfl
    rw [hcomp, List.map_id]
    exact List.mergeSort_perm _ _
  · simp only [MemStorage.getAllCodeRedEventsForAudit]
    rw [List.pairwise_map]
    have htrans : ∀ a b c : CodeRedEvent,
        decide (b.activationTime ≤ a.activationTime) = true →
        decide (c.activationTime ≤ b.activationTime) = true →
        decide (c.activationTime ≤ a.activationTime) = true := by
      intro a b c h1 h2
      rw [decide_eq_true_eq] at *
      omega
    have htotal : ∀ a b : CodeRedEvent,
        (decide (b.activationTime ≤ a.activationTime) ||
          decide (a.activationTime ≤ b.activationTime)) = true := by
      intro a b
      rcases Int.le_total b.activationTime a.activationTime with h | h <;> simp [h]
    have hs := List.sorted_mergeSort htrans htotal
      (s.codeRedEvents.map (fun kv => kv.2))
    exact hs.imp (fun h => by simpa using h)

/-- C10: assignment ignores the activity flag — on an existing but
deactivated incident it still overwrites exactly the requested role's field —
even though `getCodeRedEventById` answers null for the same id. -/
theorem c10_assignUserToCodeRed_inactive (s : MemStorage) (id : Nat)
    (e : CodeRedEvent) (pid : String) (hget : mapGet s.codeRedEvents id = some e)
    (hinactive : e.isActive = false) :
    (∀ role : UserType,
      ∃ e', mapGet (s.assignUserToCodeRed id pid role).codeRedEvents id = some e' ∧
        (role = .runner → e'.assignedRunnerId = some pid ∧
          e'.assignedClinicianId = e.assignedClinicianId) ∧
        (role = .clinician → e'.assignedClinicianId = some pid ∧
          e'.assignedRunnerId = e.assignedRunnerId)) ∧
    s.getCodeRedEventById id = none := by
  constructor
  · intro role
    unfold MemStorage.assignUserToCodeRed
    rw [hget]
    refine ⟨_, mapGet_mapSet_self _ _ _, ?_, ?_⟩
    · rintro rfl
      exact ⟨by simp, by simp⟩
    · rintro rfl
      exact ⟨by simp, by simp⟩
  · unfold MemStorage.getCodeRedEventById
    rw [hget]
    simp [hinactive]

/-- The participant of the C8 example, stored at the origin (0, 0). -/
noncomputable def sampleUserLocation : UserLocation :=
  { id := 1, userId := "runner1", userType := "runner", latitude := 0
  , longitude := 0, accuracy := none, lastUpdated := 0, isActive := true }

/-- A store holding only that participant location. -/
noncomputable def sampleLocStorage : MemStorage :=
  { emptyStorage with userLocations := [("runner1", sampleUserLocation)] }

/-- C8: the arrival estimate is null exactly when the participant has no
stored location; otherwise it is the rounded haversine travel time — for a
participant at (0, 0) and target (0, 0.0899322), about 10 km along the
equator, it answers 120 minutes at 5 km/h. -/
theorem c8_calculateArrivalEstimate_spec :
    (∀ (s : MemStorage) (uid : String) (toLat toLng : ℝ),
      (s.calculateArrivalEstimate uid toLat toLng = none ↔
        mapGet s.userLocations uid = none)) ∧
    sampleLocStorage.calculateArrivalEstimate "runner1" 0 (899322 / 10000000) =
      some 120 := by
  constructor
  · intro s uid toLat toLng
    cases h : mapGet s.userLocations uid <;>
      simp [MemStorage.calculateArrivalEstimate, h]
  · have hget : mapGet sampleLocStorage.userLocations "runner1" =
        some sampleUserLocation := by
      rw [show sampleLocStorage.userLocations = [("runner1", sampleUserLocation)]
        from rfl, mapGet_cons]
      simp
    simp only [MemStorage.calculateArrivalEstimate]
    rw [hget]
    simp only [show sampleUserLocation.latitude = 0 from rfl,
      show sampleUserLocation.longitude = 0 from rfl, sub_zero, sub_self]
    refine congrArg some ?_
    set θ : ℝ := toRadians (899322 / 10000000) / 2 with hθdef
    have h0 : toRadians (0 : ℝ) = 0 := by
      unfold toRadians
      ring
    rw [h0, zero_div, Real.sin_zero, Real.cos_zero]
    have hθval : θ = Real.pi * (899322 / 3600000000) := by
      rw [hθdef]
      unfold toRadians
      ring
    have hθpos : 0 < θ := by
      rw [hθval]
      positivity
    have hθlt : θ < Real.pi / 2 := by
      rw [hθval]
      nlinarith [Real.pi_pos]
    have hθlepi : θ ≤ Real.pi := by
      nlinarith [Real.pi_pos, hθlt]
    have hθneg : -(Real.pi / 2) < θ := by
      nlinarith [Real.pi_pos, hθpos]
    have hsin_nonneg : 0 ≤ Real.sin θ :=
      Real.sin_nonneg_of_nonneg_of_le_pi hθpos.le hθlepi
    have hcospos : 0 < Real.cos θ := Real.cos_pos_of_mem_Ioo ⟨hθneg, hθlt⟩
    have ha : (0 : ℝ) * 0 + 1 * 1 * Real.sin θ * Real.sin θ =
        Real.sin θ * Real.sin θ := by ring
    rw [ha]
    have hsqrt_a : Real.sqrt (Real.sin θ * Real.sin θ) = Real.sin θ :=
      Real.sqrt_mul_self hsin_nonneg
    have h1a : (1 : ℝ) - Real.sin θ * Real.sin θ = Real.cos θ * Real.cos θ := by
      have hpyth := Real.sin_sq_add_cos_sq θ
      nlinarith [hpyth]
    have hsqrt_1a : Real.sqrt (1 - Real.sin θ * Real.sin θ) = Real.cos θ := by
      rw [h1a]
      exact Real.sqrt_mul_self hcospos.le
    rw [hsqrt_a, hsqrt_1a]
    have hatan : atan2 (Real.sin θ) (Real.cos θ) = θ := by
      unfold atan2
      rw [if_pos hcospos, ← Real.tan_eq_sin_div_cos, Real.arctan_tan hθneg hθlt]
    rw [hatan]
    unfold jsRound
    rw [Int.floor_eq_iff]
    constructor
    · rw [hθval]
      push_cast
      nlinarith [Real.pi_gt_d2]
    · rw [hθval]
      push_cast
      nlinarith [Real.pi_lt_d2]

/-- Witness for C10 on the deactivated incident 2. -/
theorem c10_witness :
    (∀ role : UserType,
      ∃ e', mapGet (sampleStorage.assignUserToCodeRed 2 "r9" role).codeRedEvents 2 =
          some e' ∧
        (role = .runner → e'.assignedRunnerId = some "r9" ∧
          e'.assignedClinicianId = sampleEvent2.assignedClinicianId) ∧
        (role = .clinician → e'.assignedClinicianId = some "r9" ∧
          e'.assignedRunnerId = sampleEvent2.assignedRunnerId)) ∧
    sampleStorage.getCodeRedEventById 2 = none :=
  c10_assignUserToCodeRed_inactive sampleStorage 2 sampleEvent2 "r9" rfl rfl

end CodeRed
